import Mathlib

/-!
Verification development for the `log4j-rs` crate.

The crate is a thin bridge from Rust to a log4j logger living in an embedded
JVM, reached over JNI (`src/logger.rs`, `src/error.rs`, `src/lib.rs`).

Shallow embedding used here:

* The JNI environment (`jni::JNIEnv`) is modelled as a record `JNIEnv` of the
  five fallible boundary operations the crate uses (`find_class`,
  `call_static_method`, `get_method_id`, `call_method_unchecked`,
  `new_string`).  Each returns `Except JniError _` — `jni::errors::Error` is
  the abstract cause type `JniError`.
* Every boundary call additionally records a `JniCall` event in a trace, so
  that theorems can speak about which boundary operations a function performs
  and in which order.  A call is recorded even when it fails (the call was
  made; the failure is its result).
* Opaque JNI handles (`JClass`, `JObject`, `JMethodID`, `JString`) are
  modelled as `Nat` identifiers.
* `Result<T> = std::result::Result<T, Error>` becomes `Except Error T`, with
  `Error` copied from `src/error.rs` (a single variant `Java` wrapping the
  JNI cause, produced by the `#[from]` conversion that the `?` operator
  applies).
* `JavaLogger` wraps `Arc<Mutex<InnerLogger>>`; the pure call logic is
  embedded as functions over `InnerLogger`, and the mutex (acquisition,
  poisoning, the `.expect` panic) is modelled separately on top of them.
-/

namespace Log4jRs

-- Equality of `Except` values is decidable when it is on its components.
deriving instance DecidableEq for Except

/-- Abstract cause of a failed JNI boundary call (`jni::errors::Error`).
`wrongJValueType` is the error `JValue::l()` produces when the value is not
an object reference; every other cause is abstracted as `other`. -/
inductive JniError where
  | wrongJValueType
  | other (msg : String)
deriving DecidableEq

/-- `src/error.rs`: the crate's error enum has the single variant
`Java(#[from] jni::errors::Error)`. -/
inductive Error where
  | Java (cause : JniError)
deriving DecidableEq

/-- `jni::signature::Primitive` (only `Void` is used by the crate). -/
inductive Primitive where
  | Void
  | Boolean
  | Int
deriving DecidableEq

/-- `jni::signature::JavaType`, restricted to the shapes the crate mentions. -/
inductive JavaType where
  | Primitive (p : Primitive)
  | Object (name : String)
deriving DecidableEq

/-- `jni::objects::JValue`: an object reference (modelled as a `Nat` handle)
or a non-object value.  `JValue::Object` is the only variant the crate
builds; the others matter only as possible results of `call_static_method`. -/
inductive JValue where
  | object (o : Nat)
  | int (i : Int)
  | bool (b : Bool)
  | void
deriving DecidableEq

/-- `JValue::l()`: extract the object reference, failing on any other
variant (the jni crate returns a wrong-type error there). -/
def JValue.l : JValue → Except JniError Nat
  | JValue.object o => Except.ok o
  | _ => Except.error JniError.wrongJValueType

/-- One JNI boundary call, as recorded in the trace. -/
inductive JniCall where
  | findClass (name : String)
  | callStaticMethod (cls : Nat) (method descr : String) (args : List JValue)
  | getMethodId (cls : Nat) (method descr : String)
  | callMethodUnchecked (obj mid : Nat) (ret : JavaType) (args : List JValue)
  | newString (content : String)
deriving DecidableEq

/-- Is this boundary call a method invocation reaching the backend logger? -/
def JniCall.isInvoke : JniCall → Bool
  | JniCall.callMethodUnchecked _ _ _ _ => true
  | _ => false

/-- Behaviour of the JNI environment: the five boundary operations of
§6 of the design, each fallible.  A concrete `JNIEnv` value fixes what the
foreign runtime answers; theorems quantify over it. -/
structure JNIEnv where
  find_class : String → Except JniError Nat
  call_static_method : Nat → String → String → List JValue → Except JniError JValue
  get_method_id : Nat → String → String → Except JniError Nat
  call_method_unchecked : Nat → Nat → JavaType → List JValue → Except JniError JValue
  new_string : String → Except JniError Nat

/-- Perform one JNI boundary call: record the event, then either continue
with the result or stop with the cause wrapped into `Error.Java` (this is
the `?` operator together with the `#[from]` conversion of `src/error.rs`). -/
def jniStep {α β : Type} (r : Except JniError α) (ev : JniCall) (t : List JniCall)
    (k : α → List JniCall → Except Error β × List JniCall) :
    Except Error β × List JniCall :=
  match r with
  | Except.ok a => k a (t ++ [ev])
  | Except.error c => (Except.error (Error.Java c), t ++ [ev])

/-- A fallible non-boundary step (such as `JValue::l()?`): no event is
recorded, the cause is wrapped the same way on failure. -/
def exceptStep {α β : Type} (r : Except JniError α) (t : List JniCall)
    (k : α → List JniCall → Except Error β × List JniCall) :
    Except Error β × List JniCall :=
  match r with
  | Except.ok a => k a t
  | Except.error c => (Except.error (Error.Java c), t)

/-- Sequencing of already-wrapped results (the `?` operator between the
crate's own functions). -/
def andThen {α β : Type} (x : Except Error α × List JniCall)
    (k : α → List JniCall → Except Error β × List JniCall) :
    Except Error β × List JniCall :=
  match x with
  | (Except.ok a, t) => k a t
  | (Except.error e, t) => (Except.error e, t)

/-- `src/logger.rs`: `const LOG_MANAGER_CLASS`. -/
def LOG_MANAGER_CLASS : String := "org/apache/log4j/LogManager"

/-- `src/logger.rs`: `const CATEGORY_CLASS`. -/
def CATEGORY_CLASS : String := "org/apache/log4j/Category"

/-- `struct InnerLogger` of `src/logger.rs`: the logger object reference and
the four cached method IDs.  The `env` field is not stored here; the
environment behaviour is passed to each function explicitly (in the Rust
code it is a shared reference with no state of its own). -/
structure InnerLogger where
  logger : Nat
  info_method : Nat
  error_method : Nat
  warn_method : Nat
  debug_method : Nat
deriving DecidableEq

/-- `enum LogLevel` of `src/logger.rs`. -/
inductive LogLevel where
  | Error
  | Warn
  | Info
  | Debug
deriving DecidableEq

/-- `JavaLogger::jstring`: convert a Rust string into a `JValue` holding a
fresh Java string, via the `new_string` boundary call. -/
def JavaLogger.jstring (env : JNIEnv) (content : String) (t : List JniCall) :
    Except Error JValue × List JniCall :=
  jniStep (env.new_string content) (JniCall.newString content) t
    (fun s t2 => (Except.ok (JValue.object s), t2))

/-- `JavaLogger::new`: resolve the LogManager class, obtain the logger via
the static `getLogger` factory (its argument converted by `jstring` first),
extract the object with `JValue::l()`, resolve the Category class, and
resolve the four method IDs — in exactly the source's order. -/
def JavaLogger.new (env : JNIEnv) (class_name : String) (t : List JniCall) :
    Except Error InnerLogger × List JniCall :=
  jniStep (env.find_class LOG_MANAGER_CLASS) (JniCall.findClass LOG_MANAGER_CLASS) t
    (fun log_manager_class t1 =>
  andThen (JavaLogger.jstring env class_name t1) (fun arg t2 =>
  jniStep (env.call_static_method log_manager_class "getLogger"
      "(Ljava/lang/String;)Lorg/apache/log4j/Logger;" [arg])
    (JniCall.callStaticMethod log_manager_class "getLogger"
      "(Ljava/lang/String;)Lorg/apache/log4j/Logger;" [arg]) t2
    (fun logger_value t3 =>
  exceptStep logger_value.l t3 (fun logger t4 =>
  jniStep (env.find_class CATEGORY_CLASS) (JniCall.findClass CATEGORY_CLASS) t4
    (fun category_class t5 =>
  jniStep (env.get_method_id category_class "info" "(Ljava/lang/Object;)V")
    (JniCall.getMethodId category_class "info" "(Ljava/lang/Object;)V") t5
    (fun info_method t6 =>
  jniStep (env.get_method_id category_class "error" "(Ljava/lang/Object;)V")
    (JniCall.getMethodId category_class "error" "(Ljava/lang/Object;)V") t6
    (fun error_method t7 =>
  jniStep (env.get_method_id category_class "warn" "(Ljava/lang/Object;)V")
    (JniCall.getMethodId category_class "warn" "(Ljava/lang/Object;)V") t7
    (fun warn_method t8 =>
  jniStep (env.get_method_id category_class "debug" "(Ljava/lang/Object;)V")
    (JniCall.getMethodId category_class "debug" "(Ljava/lang/Object;)V") t8
    (fun debug_method t9 =>
  (Except.ok
    { logger := logger, info_method := info_method, error_method := error_method,
      warn_method := warn_method, debug_method := debug_method },
   t9))))))))))

/-- `JavaLogger::log_error`: convert the message, then invoke the cached
`error` method ID on the logger object with the converted string as sole
argument, discarding the void result. -/
def JavaLogger.log_error (env : JNIEnv) (lg : InnerLogger) (msg : String)
    (t : List JniCall) : Except Error Unit × List JniCall :=
  andThen (JavaLogger.jstring env msg t) (fun s t2 =>
  jniStep (env.call_method_unchecked lg.logger lg.error_method
      (JavaType.Primitive Primitive.Void) [s])
    (JniCall.callMethodUnchecked lg.logger lg.error_method
      (JavaType.Primitive Primitive.Void) [s]) t2
    (fun _ t3 => (Except.ok (), t3)))

/-- `JavaLogger::log_warn`. -/
def JavaLogger.log_warn (env : JNIEnv) (lg : InnerLogger) (msg : String)
    (t : List JniCall) : Except Error Unit × List JniCall :=
  andThen (JavaLogger.jstring env msg t) (fun s t2 =>
  jniStep (env.call_method_unchecked lg.logger lg.warn_method
      (JavaType.Primitive Primitive.Void) [s])
    (JniCall.callMethodUnchecked lg.logger lg.warn_method
      (JavaType.Primitive Primitive.Void) [s]) t2
    (fun _ t3 => (Except.ok (), t3)))

/-- `JavaLogger::log_info`. -/
def JavaLogger.log_info (env : JNIEnv) (lg : InnerLogger) (msg : String)
    (t : List JniCall) : Except Error Unit × List JniCall :=
  andThen (JavaLogger.jstring env msg t) (fun s t2 =>
  jniStep (env.call_method_unchecked lg.logger lg.info_method
      (JavaType.Primitive Primitive.Void) [s])
    (JniCall.callMethodUnchecked lg.logger lg.info_method
      (JavaType.Primitive Primitive.Void) [s]) t2
    (fun _ t3 => (Except.ok (), t3)))

/-- `JavaLogger::log_debug`. -/
def JavaLogger.log_debug (env : JNIEnv) (lg : InnerLogger) (msg : String)
    (t : List JniCall) : Except Error Unit × List JniCall :=
  andThen (JavaLogger.jstring env msg t) (fun s t2 =>
  jniStep (env.call_method_unchecked lg.logger lg.debug_method
      (JavaType.Primitive Primitive.Void) [s])
    (JniCall.callMethodUnchecked lg.logger lg.debug_method
      (JavaType.Primitive Primitive.Void) [s]) t2
    (fun _ t3 => (Except.ok (), t3)))

/-- The body of `JavaLogger::log` after the lock is held: dispatch on the
level (each arm followed by `?`), then return `Ok(())`. -/
def JavaLogger.log (env : JNIEnv) (lg : InnerLogger) (level : LogLevel)
    (content : String) (t : List JniCall) : Except Error Unit × List JniCall :=
  andThen
    (match level with
      | LogLevel.Error => JavaLogger.log_error env lg content t
      | LogLevel.Warn => JavaLogger.log_warn env lg content t
      | LogLevel.Info => JavaLogger.log_info env lg content t
      | LogLevel.Debug => JavaLogger.log_debug env lg content t)
    (fun _ t2 => (Except.ok (), t2))

/-- The method ID that `JavaLogger::log` dispatches to for a given level. -/
def JavaLogger.levelMethod (lg : InnerLogger) : LogLevel → Nat
  | LogLevel.Error => lg.error_method
  | LogLevel.Warn => lg.warn_method
  | LogLevel.Info => lg.info_method
  | LogLevel.Debug => lg.debug_method

/-- One `JavaLogger::log` call including the mutex:
`self.inner.lock().expect("Failed to lock inner logger")` panics when the
mutex is poisoned (modelled as `none` — the thread aborts instead of
returning a value); otherwise the guard is acquired, the body runs (it
contains no panicking operation), and the guard is dropped when the function
returns — on the `Ok` path and on the `Err` path alike — which releases the
lock.  Dropping a guard without a panic in flight leaves the mutex
unpoisoned, hence the returned poison flag is `false`. -/
def logCall (env : JNIEnv) (poisoned : Bool) (lg : InnerLogger)
    (level : LogLevel) (content : String) :
    Option ((Except Error Unit × List JniCall) × Bool) :=
  if poisoned then none
  else some (JavaLogger.log env lg level content [], false)

/-!
Visibility model for the associated functions of `impl JavaLogger` in
`src/logger.rs`.  For each function we record its name, whether it is marked
`pub`, and whether it takes `&self` (and is therefore callable as a method on
the bridge value).  Read off the source: `new` and `log` are `pub`; `log` is
the only `&self` method; `log_error`, `log_warn`, `log_info`, `log_debug`
and `jstring` are private associated functions (plain `fn`), the four level
helpers taking `&InnerLogger` — the private locked state — instead of
`&self`. -/

/-- Name, `pub`-ness and receiver kind of one associated function. -/
structure FnDecl where
  name : String
  isPub : Bool
  selfReceiver : Bool
deriving DecidableEq

/-- The associated functions of `impl<'a> JavaLogger<'a>`, in source order. -/
def javaLoggerFns : List FnDecl :=
  [⟨"new", true, false⟩,
   ⟨"log", true, true⟩,
   ⟨"log_error", false, false⟩,
   ⟨"log_warn", false, false⟩,
   ⟨"log_info", false, false⟩,
   ⟨"log_debug", false, false⟩,
   ⟨"jstring", false, false⟩]

/-!
Interleaving model for concurrent `log` calls (§5 of the design and the
`unsafe impl Send/Sync` + `Arc<Mutex<InnerLogger>>` of `src/logger.rs`).

`N` threads each perform one `log` call on the same bridge.  A thread's call
is broken into its observable steps: acquire the mutex (possible only when
nobody owns it — this is the mutual exclusion the `Mutex` provides), perform
the `new_string` boundary call, perform the `call_method_unchecked` boundary
call, release the mutex (the guard drop; on a failed `new_string` the `?`
returns early and the drop happens right after it).  The shared trace
records each boundary call together with the thread that made it.
-/

/-- Where one thread stands in its single `log` call. -/
inductive ThreadPc where
  | idle
  | acquired
  | converted (s : Nat)
  | done
deriving DecidableEq

/-- Global state: who owns the mutex, each thread's position, and the
interleaved trace of boundary calls. -/
structure Config (N : Nat) where
  owner : Option (Fin N)
  pc : Fin N → ThreadPc
  trace : List (Fin N × JniCall)

/-- All threads about to call `log`, mutex free, nothing logged yet. -/
def initConfig (N : Nat) : Config N :=
  ⟨none, fun _ => ThreadPc.idle, []⟩

/-- One interleaving step.  Boundary calls happen only while holding the
mutex; `invoke` makes the call and then releases (the result of
`call_method_unchecked` only affects the call's return value, not whether
the guard is dropped), and a failed `new_string` releases as well via the
early return of `?`. -/
inductive LogStep {N : Nat} (env : JNIEnv) (lg : InnerLogger)
    (lvl : Fin N → LogLevel) (msg : Fin N → String) :
    Config N → Config N → Prop where
  | acquire (c : Config N) (u : Fin N) :
      c.owner = none → c.pc u = ThreadPc.idle →
      LogStep env lg lvl msg c
        ⟨some u, Function.update c.pc u ThreadPc.acquired, c.trace⟩
  | convertOk (c : Config N) (u : Fin N) (s : Nat) :
      c.owner = some u → c.pc u = ThreadPc.acquired →
      env.new_string (msg u) = Except.ok s →
      LogStep env lg lvl msg c
        ⟨some u, Function.update c.pc u (ThreadPc.converted s),
         c.trace ++ [(u, JniCall.newString (msg u))]⟩
  | convertFail (c : Config N) (u : Fin N) (c0 : JniError) :
      c.owner = some u → c.pc u = ThreadPc.acquired →
      env.new_string (msg u) = Except.error c0 →
      LogStep env lg lvl msg c
        ⟨none, Function.update c.pc u ThreadPc.done,
         c.trace ++ [(u, JniCall.newString (msg u))]⟩
  | invoke (c : Config N) (u : Fin N) (s : Nat) :
      c.owner = some u → c.pc u = ThreadPc.converted s →
      LogStep env lg lvl msg c
        ⟨none, Function.update c.pc u ThreadPc.done,
         c.trace ++ [(u, JniCall.callMethodUnchecked lg.logger
            (JavaLogger.levelMethod lg (lvl u)) (JavaType.Primitive Primitive.Void)
            [JValue.object s])]⟩

/-- The trace a single thread's `log` call produces when run alone — the
sequential trace of `JavaLogger.log`, each event tagged with the thread. -/
def blockOf {N : Nat} (env : JNIEnv) (lg : InnerLogger)
    (lvl : Fin N → LogLevel) (msg : Fin N → String) (u : Fin N) :
    List (Fin N × JniCall) :=
  (JavaLogger.log env lg (lvl u) (msg u) []).2.map (fun e => (u, e))

/-- Invariant of the interleaving machine: some duplicate-free list `order`
holds exactly the finished threads, the trace so far is the concatenation of
their sequential blocks in that order (followed by the partial block of the
current owner, if any), and every thread other than the owner is either
still idle or already done. -/
def MachInv {N : Nat} (env : JNIEnv) (lg : InnerLogger)
    (lvl : Fin N → LogLevel) (msg : Fin N → String) (c : Config N) : Prop :=
  ∃ order : List (Fin N), order.Nodup ∧
    (∀ u, c.pc u = ThreadPc.done ↔ u ∈ order) ∧
    ((c.owner = none ∧ (∀ u, c.pc u = ThreadPc.idle ∨ c.pc u = ThreadPc.done) ∧
        c.trace = (order.map (blockOf env lg lvl msg)).flatten)
     ∨ (∃ u, c.owner = some u ∧
         (∀ v, v ≠ u → c.pc v = ThreadPc.idle ∨ c.pc v = ThreadPc.done) ∧
         ((c.pc u = ThreadPc.acquired ∧
             c.trace = (order.map (blockOf env lg lvl msg)).flatten)
          ∨ (∃ s, c.pc u = ThreadPc.converted s ∧
              env.new_string (msg u) = Except.ok s ∧
              c.trace = (order.map (blockOf env lg lvl msg)).flatten
                ++ [(u, JniCall.newString (msg u))]))))

/-!
Concrete data for the witness theorems.
-/

/-- An environment where every boundary call succeeds: classes get distinct
handles, method IDs are distinct per name, `new_string` returns a handle
derived from the content's length. -/
def happyEnv : JNIEnv :=
  { find_class := fun name =>
      Except.ok (if name = LOG_MANAGER_CLASS then 1 else 2),
    call_static_method := fun _ _ _ _ => Except.ok (JValue.object 10),
    get_method_id := fun _ m _ =>
      Except.ok (if m = "info" then 21 else if m = "error" then 22
        else if m = "warn" then 23 else 24),
    call_method_unchecked := fun _ _ _ _ => Except.ok JValue.void,
    new_string := fun s => Except.ok (100 + s.length) }

/-- An environment where every boundary call fails, each with its own
cause. -/
def failEnv : JNIEnv :=
  { find_class := fun _ => Except.error (JniError.other "FindClass failed"),
    call_static_method := fun _ _ _ _ =>
      Except.error (JniError.other "CallStaticMethod failed"),
    get_method_id := fun _ _ _ =>
      Except.error (JniError.other "GetMethodID failed"),
    call_method_unchecked := fun _ _ _ _ =>
      Except.error (JniError.other "CallMethod failed"),
    new_string := fun _ => Except.error (JniError.other "NewString failed") }

/-- Like `happyEnv`, except the static `getLogger` factory answers with a
non-object value. -/
def primFactoryEnv : JNIEnv :=
  { happyEnv with call_static_method := fun _ _ _ _ => Except.ok (JValue.int 3) }

/-- The bridge state `happyEnv` produces for any category name. -/
def lgW : InnerLogger :=
  { logger := 10, info_method := 21, error_method := 22,
    warn_method := 23, debug_method := 24 }

/-- A message exercising the empty-adjacent cases: an embedded null byte, a
two-byte character and a four-byte character. -/
def strW : String := "a\x00é𝄞"

/-- Thread `0` of the one-thread machine used in the `C8` witness. -/
def tW : Fin 1 := ⟨0, Nat.zero_lt_one⟩

/-- Final configuration of the one-thread witness run: the thread acquired,
converted (`happyEnv` turns `"A"` into string handle `101`), invoked and
released. -/
def c8FinalCfg : Config 1 :=
  ⟨none,
   Function.update
     (Function.update
       (Function.update (initConfig 1).pc tW ThreadPc.acquired)
       tW (ThreadPc.converted 101))
     tW ThreadPc.done,
   [(tW, JniCall.newString "A"),
    (tW, JniCall.callMethodUnchecked 10 21 (JavaType.Primitive Primitive.Void)
      [JValue.object 101])]⟩

/-!
## Helper lemmas
-/

/-- Appending the trailing `Ok(())` of `JavaLogger::log` changes nothing:
the dispatched helper already returns unit. -/
theorem andThen_unit (x : Except Error Unit × List JniCall) :
    andThen x (fun _ t2 => (Except.ok (), t2)) = x := by
  rcases x with ⟨r, t⟩
  cases r with
  | ok a => cases a; rfl
  | error e => rfl

/-- `JavaLogger.log` when the string conversion fails: the `new_string`
call is recorded, its cause is surfaced as `Error.Java`, and no method
invocation happens. -/
theorem log_of_newString_fail (env : JNIEnv) (lg : InnerLogger) (level : LogLevel)
    (content : String) (t : List JniCall) (c : JniError)
    (h : env.new_string content = Except.error c) :
    JavaLogger.log env lg level content t =
      (Except.error (Error.Java c), t ++ [JniCall.newString content]) := by
  cases level <;>
    simp [JavaLogger.log, JavaLogger.log_error, JavaLogger.log_warn, JavaLogger.log_info,
      JavaLogger.log_debug, JavaLogger.jstring, jniStep, andThen, h]

/-- `JavaLogger.log` when the string conversion succeeds: `new_string` and
then exactly the level's cached method ID are called, the converted string
being the sole argument; the overall result only depends on the invocation's
outcome. -/
theorem log_of_newString_ok (env : JNIEnv) (lg : InnerLogger) (level : LogLevel)
    (content : String) (t : List JniCall) (s : Nat)
    (h : env.new_string content = Except.ok s) :
    JavaLogger.log env lg level content t =
      ((match env.call_method_unchecked lg.logger (JavaLogger.levelMethod lg level)
          (JavaType.Primitive Primitive.Void) [JValue.object s] with
        | Except.ok _ => Except.ok ()
        | Except.error c => Except.error (Error.Java c)),
       t ++ [JniCall.newString content,
         JniCall.callMethodUnchecked lg.logger (JavaLogger.levelMethod lg level)
           (JavaType.Primitive Primitive.Void) [JValue.object s]]) := by
  cases level <;>
    rcases hc : env.call_method_unchecked lg.logger _
      (JavaType.Primitive Primitive.Void) [JValue.object s] with c | r <;>
    simp_all [JavaLogger.log, JavaLogger.log_error, JavaLogger.log_warn, JavaLogger.log_info,
      JavaLogger.log_debug, JavaLogger.jstring, JavaLogger.levelMethod, jniStep, andThen]

/-- Every result of the `log` body is `Ok(())` or the single `Java` error
kind. -/
theorem log_result_shape (env : JNIEnv) (lg : InnerLogger) (level : LogLevel)
    (content : String) (t : List JniCall) :
    (JavaLogger.log env lg level content t).1 = Except.ok () ∨
      ∃ c, (JavaLogger.log env lg level content t).1 = Except.error (Error.Java c) := by
  rcases hr : (JavaLogger.log env lg level content t).1 with e | a
  · cases e with
    | Java c => exact Or.inr ⟨c, rfl⟩
  · cases a; exact Or.inl rfl

/-!
## Claims
-/

/-- Claim C1: for every level and message, `log(level, message)` converts
the message via a fresh `new_string` boundary call (recorded on this very
call, whatever happened in the earlier trace `t`) and then invokes exactly
the cached method ID matching the level on the stored logger object, with
the converted string as sole argument, returning `Ok(())` when both
boundary calls succeed. -/
theorem c1_log_dispatch_trace (env : JNIEnv) (lg : InnerLogger) (level : LogLevel)
    (content : String) (t : List JniCall) (s : Nat) (r : JValue)
    (hs : env.new_string content = Except.ok s)
    (hc : env.call_method_unchecked lg.logger (JavaLogger.levelMethod lg level)
      (JavaType.Primitive Primitive.Void) [JValue.object s] = Except.ok r) :
    JavaLogger.log env lg level content t =
      (Except.ok (), t ++ [JniCall.newString content,
        JniCall.callMethodUnchecked lg.logger (JavaLogger.levelMethod lg level)
          (JavaType.Primitive Primitive.Void) [JValue.object s]]) := by
  rw [log_of_newString_ok env lg level content t s hs, hc]

/-- Witness for C1 at a concrete input: with `happyEnv`, logging `"hello"`
at `Info` performs `new_string` then the `info` method ID `21`, and
returns `Ok(())`. -/
theorem c1_log_dispatch_trace_witness :
    JavaLogger.log happyEnv lgW LogLevel.Info "hello" [] =
      (Except.ok (), [JniCall.newString "hello",
        JniCall.callMethodUnchecked 10 21
          (JavaType.Primitive Primitive.Void) [JValue.object 105]]) :=
  c1_log_dispatch_trace happyEnv lgW LogLevel.Info "hello" [] 105 JValue.void rfl rfl

/-- Claim C2: every failure of `new` or of `log` is the single `Java` error
kind, and it carries the original underlying cause (shown for the class
lookup in construction and the string conversion in logging). -/
theorem c2_single_error_kind (env : JNIEnv) (name : String) (lg : InnerLogger)
    (level : LogLevel) (content : String) (t : List JniCall) :
    (∀ e, (JavaLogger.new env name t).1 = Except.error e → ∃ c, e = Error.Java c) ∧
    (∀ e, (JavaLogger.log env lg level content t).1 = Except.error e → ∃ c, e = Error.Java c) ∧
    (∀ c, env.find_class LOG_MANAGER_CLASS = Except.error c →
      (JavaLogger.new env name t).1 = Except.error (Error.Java c)) ∧
    (∀ c, env.new_string content = Except.error c →
      (JavaLogger.log env lg level content t).1 = Except.error (Error.Java c)) := by
  refine ⟨fun e _ => ?_, fun e _ => ?_, fun c hc => ?_, fun c hc => ?_⟩
  · cases e with
    | Java c => exact ⟨c, rfl⟩
  · cases e with
    | Java c => exact ⟨c, rfl⟩
  · simp [JavaLogger.new, jniStep, hc]
  · rw [log_of_newString_fail env lg level content t c hc]

/-- Witness for C2: with the all-failing environment, construction surfaces
the class-lookup cause and `log` surfaces the string-conversion cause, both
as the `Java` kind. -/
theorem c2_single_error_kind_witness :
    (JavaLogger.new failEnv "app.Test" []).1 =
      Except.error (Error.Java (JniError.other "FindClass failed")) ∧
    (JavaLogger.log failEnv lgW LogLevel.Info "hello" []).1 =
      Except.error (Error.Java (JniError.other "NewString failed")) :=
  ⟨(c2_single_error_kind failEnv "app.Test" lgW LogLevel.Info "hello" []).2.2.1 _ rfl,
   (c2_single_error_kind failEnv "app.Test" lgW LogLevel.Info "hello" []).2.2.2 _ rfl⟩

/-- Claim C5: on a fully successful construction, the boundary operations
are exactly: locate the LogManager class, convert the category name,
invoke the static `getLogger` factory with the converted name as the sole
argument, locate the Category class, and resolve the four method IDs
`info`, `error`, `warn`, `debug`, each with the one-object-argument,
void-return descriptor — and the returned bridge holds the extracted logger
object and the four resolved IDs. -/
theorem c5_construction_sequence (env : JNIEnv) (name : String) (t : List JniCall)
    (mc s : Nat) (lv : JValue) (obj cc im em wm dm : Nat)
    (h1 : env.find_class LOG_MANAGER_CLASS = Except.ok mc)
    (h2 : env.new_string name = Except.ok s)
    (h3 : env.call_static_method mc "getLogger"
      "(Ljava/lang/String;)Lorg/apache/log4j/Logger;" [JValue.object s] = Except.ok lv)
    (h4 : lv.l = Except.ok obj)
    (h5 : env.find_class CATEGORY_CLASS = Except.ok cc)
    (h6 : env.get_method_id cc "info" "(Ljava/lang/Object;)V" = Except.ok im)
    (h7 : env.get_method_id cc "error" "(Ljava/lang/Object;)V" = Except.ok em)
    (h8 : env.get_method_id cc "warn" "(Ljava/lang/Object;)V" = Except.ok wm)
    (h9 : env.get_method_id cc "debug" "(Ljava/lang/Object;)V" = Except.ok dm) :
    JavaLogger.new env name t =
      (Except.ok ⟨obj, im, em, wm, dm⟩,
       t ++ [JniCall.findClass LOG_MANAGER_CLASS,
         JniCall.newString name,
         JniCall.callStaticMethod mc "getLogger"
           "(Ljava/lang/String;)Lorg/apache/log4j/Logger;" [JValue.object s],
         JniCall.findClass CATEGORY_CLASS,
         JniCall.getMethodId cc "info" "(Ljava/lang/Object;)V",
         JniCall.getMethodId cc "error" "(Ljava/lang/Object;)V",
         JniCall.getMethodId cc "warn" "(Ljava/lang/Object;)V",
         JniCall.getMethodId cc "debug" "(Ljava/lang/Object;)V"]) := by
  simp [JavaLogger.new, JavaLogger.jstring, jniStep, exceptStep, andThen,
    h1, h2, h3, h4, h5, h6, h7, h8, h9, List.append_assoc]

/-- Witness for C5: the happy environment builds the expected bridge with
the expected boundary-call sequence for category `"app.Test"`. -/
theorem c5_construction_sequence_witness :
    JavaLogger.new happyEnv "app.Test" [] =
      (Except.ok ⟨10, 21, 22, 23, 24⟩,
       [JniCall.findClass LOG_MANAGER_CLASS,
        JniCall.newString "app.Test",
        JniCall.callStaticMethod 1 "getLogger"
          "(Ljava/lang/String;)Lorg/apache/log4j/Logger;" [JValue.object 108],
        JniCall.findClass CATEGORY_CLASS,
        JniCall.getMethodId 2 "info" "(Ljava/lang/Object;)V",
        JniCall.getMethodId 2 "error" "(Ljava/lang/Object;)V",
        JniCall.getMethodId 2 "warn" "(Ljava/lang/Object;)V",
        JniCall.getMethodId 2 "debug" "(Ljava/lang/Object;)V"]) :=
  c5_construction_sequence happyEnv "app.Test" [] 1 108 (JValue.object 10)
    10 2 21 22 23 24 rfl rfl rfl rfl rfl rfl rfl rfl rfl

/-- Claim C10: if the static factory invocation succeeds but yields a value
that is not an object reference, construction fails with the single `Java`
error kind (carrying the wrong-type cause of `JValue::l()`), and no bridge
is returned. -/
theorem c10_nonobject_factory_result (env : JNIEnv) (name : String) (t : List JniCall)
    (mc s : Nat) (lv : JValue)
    (h1 : env.find_class LOG_MANAGER_CLASS = Except.ok mc)
    (h2 : env.new_string name = Except.ok s)
    (h3 : env.call_static_method mc "getLogger"
      "(Ljava/lang/String;)Lorg/apache/log4j/Logger;" [JValue.object s] = Except.ok lv)
    (h4 : ∀ o, lv ≠ JValue.object o) :
    JavaLogger.new env name t =
      (Except.error (Error.Java JniError.wrongJValueType),
       t ++ [JniCall.findClass LOG_MANAGER_CLASS,
         JniCall.newString name,
         JniCall.callStaticMethod mc "getLogger"
           "(Ljava/lang/String;)Lorg/apache/log4j/Logger;" [JValue.object s]]) := by
  have hl : lv.l = Except.error JniError.wrongJValueType := by
    cases lv with
    | object o => exact absurd rfl (h4 o)
    | int i => rfl
    | bool b => rfl
    | void => rfl
  simp [JavaLogger.new, JavaLogger.jstring, jniStep, exceptStep, andThen,
    h1, h2, h3, hl, List.append_assoc]

/-- Witness for C10: a factory answering with the non-object value `3`
makes construction fail with the wrong-type cause. -/
theorem c10_nonobject_factory_result_witness :
    JavaLogger.new primFactoryEnv "app.Test" [] =
      (Except.error (Error.Java JniError.wrongJValueType),
       [JniCall.findClass LOG_MANAGER_CLASS,
        JniCall.newString "app.Test",
        JniCall.callStaticMethod 1 "getLogger"
          "(Ljava/lang/String;)Lorg/apache/log4j/Logger;" [JValue.object 108]]) :=
  c10_nonobject_factory_result primFactoryEnv "app.Test" [] 1 108 (JValue.int 3)
    rfl rfl rfl (fun o h => by cases h)

/-- Claim C3: failure of any construction step yields an error and no
bridge.  First conjunct: a failed class lookup surfaces its cause as the
single `Java` error kind (and nothing else happens).  Second conjunct: a
bridge is returned only when every step succeeded — the logger object and
all four method IDs of the returned bridge come from successful boundary
calls, so a partially-initialized bridge is never observable. -/
theorem c3_construction_aborts (env : JNIEnv) (name : String) (t : List JniCall) :
    (∀ c, env.find_class LOG_MANAGER_CLASS = Except.error c →
      JavaLogger.new env name t =
        (Except.error (Error.Java c), t ++ [JniCall.findClass LOG_MANAGER_CLASS])) ∧
    (∀ lg t2, JavaLogger.new env name t = (Except.ok lg, t2) →
      ∃ mc s lv cc,
        env.find_class LOG_MANAGER_CLASS = Except.ok mc ∧
        env.new_string name = Except.ok s ∧
        env.call_static_method mc "getLogger"
          "(Ljava/lang/String;)Lorg/apache/log4j/Logger;" [JValue.object s] = Except.ok lv ∧
        lv.l = Except.ok lg.logger ∧
        env.find_class CATEGORY_CLASS = Except.ok cc ∧
        env.get_method_id cc "info" "(Ljava/lang/Object;)V" = Except.ok lg.info_method ∧
        env.get_method_id cc "error" "(Ljava/lang/Object;)V" = Except.ok lg.error_method ∧
        env.get_method_id cc "warn" "(Ljava/lang/Object;)V" = Except.ok lg.warn_method ∧
        env.get_method_id cc "debug" "(Ljava/lang/Object;)V" = Except.ok lg.debug_method) := by
  constructor
  · intro c hc
    simp [JavaLogger.new, jniStep, hc]
  · intro lg t2 h
    rcases hmc : env.find_class LOG_MANAGER_CLASS with c | mc
    · simp [JavaLogger.new, jniStep, hmc, Prod.ext_iff] at h
    rcases hs : env.new_string name with c | s
    · simp [JavaLogger.new, JavaLogger.jstring, jniStep, andThen, hmc, hs, Prod.ext_iff] at h
    rcases hcs : env.call_static_method mc "getLogger"
        "(Ljava/lang/String;)Lorg/apache/log4j/Logger;" [JValue.object s] with c | lv
    · simp [JavaLogger.new, JavaLogger.jstring, jniStep, andThen, hmc, hs, hcs,
        Prod.ext_iff] at h
    rcases hl : lv.l with c | obj
    · simp [JavaLogger.new, JavaLogger.jstring, jniStep, exceptStep, andThen, hmc, hs, hcs,
        hl, Prod.ext_iff] at h
    rcases hcc : env.find_class CATEGORY_CLASS with c | cc
    · simp [JavaLogger.new, JavaLogger.jstring, jniStep, exceptStep, andThen, hmc, hs, hcs,
        hl, hcc, Prod.ext_iff] at h
    rcases him : env.get_method_id cc "info" "(Ljava/lang/Object;)V" with c | im
    · simp [JavaLogger.new, JavaLogger.jstring, jniStep, exceptStep, andThen, hmc, hs, hcs,
        hl, hcc, him, Prod.ext_iff] at h
    rcases hem : env.get_method_id cc "error" "(Ljava/lang/Object;)V" with c | em
    · simp [JavaLogger.new, JavaLogger.jstring, jniStep, exceptStep, andThen, hmc, hs, hcs,
        hl, hcc, him, hem, Prod.ext_iff] at h
    rcases hwm : env.get_method_id cc "warn" "(Ljava/lang/Object;)V" with c | wm
    · simp [JavaLogger.new, JavaLogger.jstring, jniStep, exceptStep, andThen, hmc, hs, hcs,
        hl, hcc, him, hem, hwm, Prod.ext_iff] at h
    rcases hdm : env.get_method_id cc "debug" "(Ljava/lang/Object;)V" with c | dm
    · simp [JavaLogger.new, JavaLogger.jstring, jniStep, exceptStep, andThen, hmc, hs, hcs,
        hl, hcc, him, hem, hwm, hdm, Prod.ext_iff] at h
    · simp [JavaLogger.new, JavaLogger.jstring, jniStep, exceptStep, andThen, hmc, hs, hcs,
        hl, hcc, him, hem, hwm, hdm, Prod.ext_iff] at h
      obtain ⟨h1, _h2⟩ := h
      subst h1
      exact ⟨mc, s, lv, cc, rfl, rfl, hcs, hl, rfl, him, hem, hwm, hdm⟩

/-- Witness for C3: with the all-failing environment, construction stops at
the class lookup with its cause, returning no bridge. -/
theorem c3_construction_aborts_witness :
    JavaLogger.new failEnv "app.Test" [] =
      (Except.error (Error.Java (JniError.other "FindClass failed")),
       [JniCall.findClass LOG_MANAGER_CLASS]) :=
  (c3_construction_aborts failEnv "app.Test" []).1 _ rfl

/-- Claim C4: a `log` call on an unpoisoned bridge always completes (the
mutex guard is dropped on the `Ok` and on the `Err` path alike), leaves the
mutex unpoisoned, returns `Ok(())` or the single `Java` error kind, and a
subsequent `log` call on the resulting state again completes normally. -/
theorem c4_lock_released (env : JNIEnv) (lg : InnerLogger) (level : LogLevel)
    (content : String) :
    ∃ res post, logCall env false lg level content = some (res, post) ∧ post = false ∧
      (res.1 = Except.ok () ∨ ∃ c, res.1 = Except.error (Error.Java c)) ∧
      ∀ env2 level2 content2, (logCall env2 post lg level2 content2).isSome := by
  refine ⟨(JavaLogger.log env lg level content []), false, rfl, rfl,
    log_result_shape env lg level content [], ?_⟩
  intro env2 level2 content2
  simp [logCall]

/-- Claim C7: for every text input — the universally quantified `content`
covers the empty string, strings with embedded null bytes and multi-byte
characters — a `log` call on an unpoisoned bridge never aborts: it returns
a value, that value leaves the mutex unpoisoned, and it succeeds or fails
only through the single `Java` error kind. -/
theorem c7_log_never_aborts (env : JNIEnv) (lg : InnerLogger) (level : LogLevel)
    (content : String) :
    (logCall env false lg level content).isSome ∧
    ∀ res, logCall env false lg level content = some res →
      res.2 = false ∧
      (res.1.1 = Except.ok () ∨ ∃ c, res.1.1 = Except.error (Error.Java c)) := by
  constructor
  · simp [logCall]
  · intro res h
    simp only [logCall, if_false, Bool.false_eq_true, Option.some.injEq] at h
    subst h
    exact ⟨rfl, log_result_shape env lg level content []⟩

/-- Witness for C7 at a message with an embedded null byte, a two-byte and
a four-byte character. -/
theorem c7_log_never_aborts_witness :
    (logCall happyEnv false lgW LogLevel.Debug strW).isSome ∧
    ((JavaLogger.log happyEnv lgW LogLevel.Debug strW [], false).2 = false ∧
      ((JavaLogger.log happyEnv lgW LogLevel.Debug strW [], false).1.1 = Except.ok () ∨
       ∃ c, (JavaLogger.log happyEnv lgW LogLevel.Debug strW [], false).1.1 =
         Except.error (Error.Java c))) :=
  ⟨(c7_log_never_aborts happyEnv lgW LogLevel.Debug strW).1,
   (c7_log_never_aborts happyEnv lgW LogLevel.Debug strW).2 _ rfl⟩

/-- Claim C9: on a poisoned mutex `log` panics (`lock().expect(...)` — no
value is returned at all) rather than returning an `Err`; a `Result` comes
back only when the lock is not poisoned. -/
theorem c9_poisoned_lock_panics (env : JNIEnv) (lg : InnerLogger) (level : LogLevel)
    (content : String) :
    logCall env true lg level content = none ∧
    (logCall env false lg level content).isSome :=
  ⟨rfl, by simp [logCall]⟩

/-- Counterexample to claim C6 as stated: it is false that the four
single-level operations are public and callable as methods on the bridge —
`log_error` (like the other three) is a private associated function without
a `self` receiver in `src/logger.rs`. -/
theorem c6_counterexample :
    ¬ (∀ f ∈ javaLoggerFns,
        (f.name = "log_error" ∨ f.name = "log_warn" ∨ f.name = "log_info" ∨
          f.name = "log_debug") → f.isPub = true ∧ f.selfReceiver = true) := by
  decide

/-- Claim C6 as amended: the four single-level operations exist, but as
private associated functions taking the locked inner state rather than
`&self` — the only public functions are `new` and `log` — and `log`
reaches them by level dispatch: for each level, `log` computes exactly what
the corresponding helper computes. -/
theorem c6_private_level_helpers :
    javaLoggerFns.all (fun f => !f.isPub || (f.name == "new" || f.name == "log")) = true ∧
    FnDecl.mk "log_error" false false ∈ javaLoggerFns ∧
    FnDecl.mk "log_warn" false false ∈ javaLoggerFns ∧
    FnDecl.mk "log_info" false false ∈ javaLoggerFns ∧
    FnDecl.mk "log_debug" false false ∈ javaLoggerFns ∧
    (∀ env lg content t,
      JavaLogger.log env lg LogLevel.Error content t = JavaLogger.log_error env lg content t) ∧
    (∀ env lg content t,
      JavaLogger.log env lg LogLevel.Warn content t = JavaLogger.log_warn env lg content t) ∧
    (∀ env lg content t,
      JavaLogger.log env lg LogLevel.Info content t = JavaLogger.log_info env lg content t) ∧
    (∀ env lg content t,
      JavaLogger.log env lg LogLevel.Debug content t = JavaLogger.log_debug env lg content t) := by
  refine ⟨by decide, by decide, by decide, by decide, by decide, ?_, ?_, ?_, ?_⟩ <;>
    exact fun env lg content t => by simp [JavaLogger.log, andThen_unit]

/-!
## The interleaving machine: serialization of concurrent `log` calls
-/

/-- A thread whose string conversion fails contributes exactly the
`new_string` event — the same trace its sequential `log` call produces. -/
theorem blockOf_of_newString_fail {N : Nat} (env : JNIEnv) (lg : InnerLogger)
    (lvl : Fin N → LogLevel) (msg : Fin N → String) (u : Fin N) (c : JniError)
    (h : env.new_string (msg u) = Except.error c) :
    blockOf env lg lvl msg u = [(u, JniCall.newString (msg u))] := by
  simp [blockOf, log_of_newString_fail env lg (lvl u) (msg u) [] c h]

/-- A thread whose string conversion succeeds contributes its `new_string`
event followed by its method invocation — again the sequential trace of its
`log` call. -/
theorem blockOf_of_newString_ok {N : Nat} (env : JNIEnv) (lg : InnerLogger)
    (lvl : Fin N → LogLevel) (msg : Fin N → String) (u : Fin N) (s : Nat)
    (h : env.new_string (msg u) = Except.ok s) :
    blockOf env lg lvl msg u =
      [(u, JniCall.newString (msg u)),
       (u, JniCall.callMethodUnchecked lg.logger
         (JavaLogger.levelMethod lg (lvl u)) (JavaType.Primitive Primitive.Void)
         [JValue.object s])] := by
  simp [blockOf, log_of_newString_ok env lg (lvl u) (msg u) [] s h]

/-- The invariant holds initially. -/
theorem machInv_init {N : Nat} (env : JNIEnv) (lg : InnerLogger)
    (lvl : Fin N → LogLevel) (msg : Fin N → String) :
    MachInv env lg lvl msg (initConfig N) := by
  refine ⟨[], by simp, fun u => by simp [initConfig], Or.inl ⟨rfl, fun u => Or.inl rfl, by simp [initConfig]⟩⟩

/-- The invariant is preserved by every interleaving step. -/
theorem machInv_step {N : Nat} (env : JNIEnv) (lg : InnerLogger)
    (lvl : Fin N → LogLevel) (msg : Fin N → String) {c c' : Config N}
    (hstep : LogStep env lg lvl msg c c') (hinv : MachInv env lg lvl msg c) :
    MachInv env lg lvl msg c' := by
  obtain ⟨order, hnd, hdone, hrest⟩ := hinv
  cases hstep with
  | acquire u hown hidle =>
    rcases hrest with ⟨-, h2, h3⟩ | ⟨v, hv, -, -⟩
    · refine ⟨order, hnd, fun w => ?_, Or.inr ⟨u, rfl, fun w hwu => ?_, Or.inl ⟨?_, h3⟩⟩⟩
      · by_cases hwu : w = u
        · subst hwu
          simp only [Function.update_same]
          constructor
          · intro hx; exact absurd hx (by simp)
          · intro hmem
            have hx := (hdone w).2 hmem
            rw [hidle] at hx
            exact absurd hx (by simp)
        · simp only [Function.update_noteq hwu]
          exact hdone w
      · simp only [Function.update_noteq hwu]
        exact h2 w
      · exact Function.update_same u ThreadPc.acquired c.pc
    · rw [hv] at hown
      exact Option.noConfusion hown
  | convertOk u s hown hacq hns =>
    rcases hrest with ⟨h1, -, -⟩ | ⟨v, hv, hothers, hsub⟩
    · rw [h1] at hown
      exact Option.noConfusion hown
    · obtain rfl : u = v := Option.some.inj (hown.symm.trans hv)
      rcases hsub with ⟨-, htr⟩ | ⟨s2, hpc2, -, -⟩
      · refine ⟨order, hnd, fun w => ?_,
          Or.inr ⟨u, rfl, fun w hwu => ?_, Or.inr ⟨s, ?_, hns, ?_⟩⟩⟩
        · by_cases hwu : w = u
          · subst hwu
            simp only [Function.update_same]
            constructor
            · intro hx; exact absurd hx (by simp)
            · intro hmem
              have hx := (hdone w).2 hmem
              rw [hacq] at hx
              exact absurd hx (by simp)
          · simp only [Function.update_noteq hwu]
            exact hdone w
        · simp only [Function.update_noteq hwu]
          exact hothers w hwu
        · exact Function.update_same u (ThreadPc.converted s) c.pc
        · rw [htr]
      · rw [hacq] at hpc2
        exact absurd hpc2 (by simp)
  | convertFail u c0 hown hacq hns =>
    rcases hrest with ⟨h1, -, -⟩ | ⟨v, hv, hothers, hsub⟩
    · rw [h1] at hown
      exact Option.noConfusion hown
    · obtain rfl : u = v := Option.some.inj (hown.symm.trans hv)
      rcases hsub with ⟨-, htr⟩ | ⟨s2, hpc2, -, -⟩
      · have hunotin : u ∉ order := by
          intro hm
          have hx := (hdone u).2 hm
          rw [hacq] at hx
          exact absurd hx (by simp)
        refine ⟨order ++ [u], ?_, fun w => ?_, Or.inl ⟨rfl, fun w => ?_, ?_⟩⟩
        · simp [List.nodup_append, hnd, hunotin]
        · by_cases hwu : w = u
          · subst hwu
            simp only [Function.update_same]
            simp
          · simp only [Function.update_noteq hwu, List.mem_append, List.mem_singleton]
            simp [hdone w, hwu]
        · by_cases hwu : w = u
          · subst hwu
            right
            exact Function.update_same w ThreadPc.done c.pc
          · simp only [Function.update_noteq hwu]
            exact hothers w hwu
        · simp [htr, blockOf_of_newString_fail env lg lvl msg u c0 hns]
      · rw [hacq] at hpc2
        exact absurd hpc2 (by simp)
  | invoke u s hown hpcu =>
    rcases hrest with ⟨h1, -, -⟩ | ⟨v, hv, hothers, hsub⟩
    · rw [h1] at hown
      exact Option.noConfusion hown
    · obtain rfl : u = v := Option.some.inj (hown.symm.trans hv)
      rcases hsub with ⟨hpc2, -⟩ | ⟨s2, hpc2, hns, htr⟩
      · rw [hpcu] at hpc2
        exact absurd hpc2 (by simp)
      · obtain rfl : s = s2 := by
          rw [hpcu] at hpc2
          exact ThreadPc.converted.inj hpc2
        have hunotin : u ∉ order := by
          intro hm
          have hx := (hdone u).2 hm
          rw [hpcu] at hx
          exact absurd hx (by simp)
        refine ⟨order ++ [u], ?_, fun w => ?_, Or.inl ⟨rfl, fun w => ?_, ?_⟩⟩
        · simp [List.nodup_append, hnd, hunotin]
        · by_cases hwu : w = u
          · subst hwu
            simp only [Function.update_same]
            simp
          · simp only [Function.update_noteq hwu, List.mem_append, List.mem_singleton]
            simp [hdone w, hwu]
        · by_cases hwu : w = u
          · subst hwu
            right
            exact Function.update_same w ThreadPc.done c.pc
          · simp only [Function.update_noteq hwu]
            exact hothers w hwu
        · simp [htr, blockOf_of_newString_ok env lg lvl msg u s hns]

/-- Every reachable configuration satisfies the invariant. -/
theorem machInv_reach {N : Nat} (env : JNIEnv) (lg : InnerLogger)
    (lvl : Fin N → LogLevel) (msg : Fin N → String) {c : Config N}
    (h : Relation.ReflTransGen (LogStep env lg lvl msg) (initConfig N) c) :
    MachInv env lg lvl msg c := by
  induction h with
  | refl => exact machInv_init env lg lvl msg
  | tail _ hbc ih => exact machInv_step env lg lvl msg hbc ih

/-- Claim C8: in any complete interleaved execution of `N` threads each
performing one `log` call on the same bridge, the mutex fully serializes
the calls: the final trace is the concatenation of the threads' sequential
convert-then-invoke blocks in some total order containing every thread
exactly once (no interleaving, no lost or duplicated calls), and when every
string conversion succeeds exactly `N` method invocations reach the
backend. -/
theorem c8_serialized_total_order {N : Nat} (env : JNIEnv) (lg : InnerLogger)
    (lvl : Fin N → LogLevel) (msg : Fin N → String) (c : Config N)
    (hreach : Relation.ReflTransGen (LogStep env lg lvl msg) (initConfig N) c)
    (hfin : ∀ u, c.pc u = ThreadPc.done) :
    ∃ order : List (Fin N), order.Nodup ∧ (∀ u, u ∈ order) ∧ order.length = N ∧
      c.trace = (order.map (blockOf env lg lvl msg)).flatten ∧
      ((∀ u, ∃ s, env.new_string (msg u) = Except.ok s) →
        c.trace.countP (fun e => e.2.isInvoke) = N) := by
  obtain ⟨order, hnd, hiff, hrest⟩ := machInv_reach env lg lvl msg hreach
  rcases hrest with ⟨-, -, htr⟩ | ⟨v, -, -, hsub⟩
  swap
  · rcases hsub with ⟨hpc, -⟩ | ⟨s, hpc, -, -⟩ <;> rw [hfin v] at hpc <;>
      exact absurd hpc (by simp)
  have hmem : ∀ u, u ∈ order := fun u => (hiff u).1 (hfin u)
  have hlen : order.length = N := by
    have h1 := List.toFinset_card_of_nodup hnd
    have h2 : order.toFinset = Finset.univ :=
      Finset.eq_univ_iff_forall.mpr (fun u => List.mem_toFinset.mpr (hmem u))
    rw [h2, Finset.card_univ, Fintype.card_fin] at h1
    exact h1.symm
  refine ⟨order, hnd, hmem, hlen, htr, ?_⟩
  intro hall
  rw [htr, List.countP_flatten, List.map_map]
  have hblocks : ∀ u ∈ order,
      (List.countP (fun e => e.2.isInvoke) ∘ blockOf env lg lvl msg) u = 1 := by
    intro u _
    obtain ⟨s, hs⟩ := hall u
    simp [Function.comp, blockOf_of_newString_ok env lg lvl msg u s hs,
      List.countP_cons, JniCall.isInvoke]
  rw [List.map_congr_left hblocks]
  simp [hlen]

/-- Witness for C8: a complete one-thread run (acquire, convert, invoke)
reaching `c8FinalCfg`, whose trace is the single sequential block and
contains exactly one backend invocation. -/
theorem c8_serialized_total_order_witness :
    ∃ order : List (Fin 1), order.Nodup ∧ (∀ u, u ∈ order) ∧ order.length = 1 ∧
      c8FinalCfg.trace =
        (order.map (blockOf happyEnv lgW (fun _ => LogLevel.Info) (fun _ => "A"))).flatten ∧
      ((∀ _u : Fin 1, ∃ s, happyEnv.new_string "A" = Except.ok s) →
        c8FinalCfg.trace.countP (fun e => e.2.isInvoke) = 1) :=
  c8_serialized_total_order happyEnv lgW (fun _ => LogLevel.Info) (fun _ => "A") c8FinalCfg
    (Relation.ReflTransGen.head (LogStep.acquire (initConfig 1) tW rfl rfl)
      (Relation.ReflTransGen.head
        (LogStep.convertOk _ tW 101 rfl (by simp [initConfig, Function.update]) rfl)
        (Relation.ReflTransGen.head
          (LogStep.invoke _ tW 101 rfl (by simp [initConfig, Function.update]))
          Relation.ReflTransGen.refl)))
    (by decide)

end Log4jRs
